import Mathlib

/-!
Verification of the moonlight feed generator (src/update_rss.py).

The development shallowly embeds the program: strings are Lean strings
(sequences of Unicode code points, matching Python), machine-level hashing is
implemented over Nat bytes, fallible steps return Except or Option, and the
orchestrating main function is a pure function from the run inputs (config,
loaded cache, on-disk documents, per-feed fetch outcomes) to the observable
run outcome (written documents, written cache file, emitted token, or the
uncaught error that aborted the run).
-/

/-! ## Python string primitives used by the source -/

/-- Python str.lower for the ASCII range (update_rss.py lines 59, 66, 76, 101).
The source only lowercases repository names, logins and guids. -/
def pyLower (s : String) : String := ⟨s.data.map Char.toLower⟩

/-- The characters stripped by Python str.strip() with no argument: the
full Unicode whitespace set of str.isspace (code points 9-13, 28-31, 32,
133, 160, 5760, 8192-8202, 8232, 8233, 8239, 8287 and 12288), used by the
strip call at line 81. -/
def isPySpace (c : Char) : Bool :=
  let n := c.toNat
  (9 ≤ n && n ≤ 13) || (28 ≤ n && n ≤ 31) || n == 32 || n == 133 || n == 160 ||
    n == 5760 || (8192 ≤ n && n ≤ 8202) || n == 8232 || n == 8233 || n == 8239 ||
    n == 8287 || n == 12288

/-- Python str.strip(): drop whitespace from both ends (line 81). -/
def pyStripChars (l : List Char) : List Char :=
  ((l.dropWhile isPySpace).reverse.dropWhile isPySpace).reverse

/-- Whether pat is an initial segment of l. -/
def isHeadSeg : List Char → List Char → Bool
  | [], _ => true
  | p :: ps, l =>
    match l with
    | [] => false
    | x :: xs => p = x && isHeadSeg ps xs

/-- The part of l strictly before the first occurrence of pat, or all of l
when pat does not occur: Python s.split(pat, 1)[0] (line 82). -/
def beforeSep (pat : List Char) : List Char → List Char
  | [] => []
  | c :: rest => if isHeadSeg pat (c :: rest) then [] else c :: beforeSep pat rest

/-- Python s.replace of the two-character CRLF sequence by a single space,
scanning left to right without overlap (line 83). -/
def collapseCRLF : List Char → List Char
  | '\r' :: '\n' :: rest => ' ' :: collapseCRLF rest
  | c :: rest => c :: collapseCRLF rest
  | [] => []

/-- The double line-break separating paragraphs (line 82). -/
def crlfcrlf : List Char := ['\r', '\n', '\r', '\n']

/-- Item description derivation, translated from lines 81-85:
strip the body, keep the part before the first blank line, collapse the
remaining CRLF line breaks to spaces, and truncate to 509 characters plus a
three-character ellipsis when longer than 512 characters. -/
def deriveDesc (body : String) : String :=
  let d := pyStripChars body.data
  let d := beforeSep crlfcrlf d
  let d := collapseCRLF d
  if d.length > 512 then ⟨d.take 509 ++ ['.', '.', '.']⟩ else ⟨d⟩

/-! ## Date conversion (lines 87-92)

The source drops the trailing zone marker, appends an explicit UTC offset,
parses with datetime.fromisoformat and re-renders through
email.utils.format_datetime with usegmt=True.  We model the second-precision
ISO form produced by the GitHub API (YYYY-MM-DDTHH:MM:SS plus one trailing
character); other inputs are rejected, as fromisoformat rejects the chopped
string in those cases. -/

def pad2 (n : Nat) : String := if n < 10 then "0" ++ toString n else toString n

def pad4 (n : Nat) : String :=
  if n < 10 then "000" ++ toString n
  else if n < 100 then "00" ++ toString n
  else if n < 1000 then "0" ++ toString n
  else toString n

def monthNames : List String :=
  ["Jan", "Feb", "Mar", "Apr", "May", "Jun", "Jul", "Aug", "Sep", "Oct", "Nov", "Dec"]

def dayNames : List String := ["Sun", "Mon", "Tue", "Wed", "Thu", "Fri", "Sat"]

def isLeap (y : Nat) : Bool := (y % 4 = 0 && y % 100 ≠ 0) || y % 400 = 0

def daysInMonth (y m : Nat) : Nat :=
  if m = 2 then (if isLeap y then 29 else 28)
  else if m = 4 || m = 6 || m = 9 || m = 11 then 30
  else 31

/-- Days since 0000-03-01 in the proleptic Gregorian calendar, for the
weekday rendered by email.utils.format_datetime. -/
def daysFromCivil (y m d : Nat) : Nat :=
  let yAdj := if m ≤ 2 then y - 1 else y
  let era := yAdj / 400
  let yoe := yAdj % 400
  let mp := if m > 2 then m - 3 else m + 9
  let doy := (153 * mp + 2) / 5 + (d - 1)
  let doe := yoe * 365 + yoe / 4 - yoe / 100 + doy
  era * 146097 + doe

/-- Day 0000-03-01 was a Wednesday; index 0 is Sunday. -/
def weekdayName (y m d : Nat) : String :=
  dayNames.getD ((daysFromCivil y m d + 3) % 7) ""

def digit? (c : Char) : Option Nat :=
  if c.toNat ≥ 48 && c.toNat ≤ 57 then some (c.toNat - 48) else none

def digits2 (a b : Char) : Option Nat := do
  let x ← digit? a
  let y ← digit? b
  some (x * 10 + y)

def parseIso19 (l : List Char) : Option (Nat × Nat × Nat × Nat × Nat × Nat) :=
  let g := fun i => l.getD i ' '
  if l.length = 19 && g 4 = '-' && g 7 = '-' && g 10 = 'T' && g 13 = ':' && g 16 = ':' then do
    let yh ← digits2 (g 0) (g 1)
    let yl ← digits2 (g 2) (g 3)
    let mo ← digits2 (g 5) (g 6)
    let dy ← digits2 (g 8) (g 9)
    let hh ← digits2 (g 11) (g 12)
    let mi ← digits2 (g 14) (g 15)
    let ss ← digits2 (g 17) (g 18)
    some (yh * 100 + yl, mo, dy, hh, mi, ss)
  else none

/-- Lines 89-92: date[:-1] + "+00:00", datetime.fromisoformat,
email.utils.format_datetime(dt, usegmt=True). -/
def isoZToRfc2822 (date : String) : Option String := do
  let (y, m, d, hh, mi, ss) ← parseIso19 date.data.dropLast
  if y ≥ 1 && y ≤ 9999 && m ≥ 1 && m ≤ 12 && d ≥ 1 && d ≤ daysInMonth y m
      && hh ≤ 23 && mi ≤ 59 && ss ≤ 59 then
    some (weekdayName y m d ++ ", " ++ pad2 d ++ " " ++ monthNames.getD (m - 1) ""
      ++ " " ++ pad4 y ++ " " ++ pad2 hh ++ ":" ++ pad2 mi ++ ":" ++ pad2 ss ++ " GMT")
  else none

/-! ## Configuration hashing (hash_config, lines 138-144)

A configuration mapping (a Python dict parsed from config.json) is modelled
as an association list from string keys to JSON values; the values occurring
in this projects configuration are strings and arrays of strings. -/

inductive JVal where
  | str (s : String)
  | arr (a : List String)
deriving DecidableEq

/-- The lowercase hex digit for n < 16: digits 0-9 then letters a-f. -/
def hexDigit (n : Nat) : Char :=
  if n < 10 then Char.ofNat (48 + n) else Char.ofNat (87 + n)

def hex4 (n : Nat) : List Char :=
  [hexDigit (n / 4096 % 16), hexDigit (n / 256 % 16), hexDigit (n / 16 % 16), hexDigit (n % 16)]

/-- The character escapes of json.dumps with its default ensure_ascii=True:
quote, backslash and the short control escapes, a uXXXX escape for the other
control characters and for every character outside the printable ASCII
range, with surrogate pairs above the basic plane. -/
def jsonEscapeChar (c : Char) : List Char :=
  if c = '"' then ['\\', '"']
  else if c = '\\' then ['\\', '\\']
  else if c = '\n' then ['\\', 'n']
  else if c = '\r' then ['\\', 'r']
  else if c = '\t' then ['\\', 't']
  else if c.toNat = 8 then ['\\', 'b']
  else if c.toNat = 12 then ['\\', 'f']
  else if c.toNat < 32 || c.toNat > 126 then
    if c.toNat < 65536 then '\\' :: 'u' :: hex4 c.toNat
    else
      let v := c.toNat - 65536
      ('\\' :: 'u' :: hex4 (55296 + v / 1024)) ++ ('\\' :: 'u' :: hex4 (56320 + v % 1024))
  else [c]

def jsonStr (s : String) : String := ⟨'"' :: (s.data.map jsonEscapeChar).flatten ++ ['"']⟩

def jsonVal : JVal → String
  | .str s => jsonStr s
  | .arr a => "[" ++ String.intercalate ", " (a.map jsonStr) ++ "]"

/-- json.dumps of a string-keyed mapping with the default separators. -/
def jsonDumps (l : List (String × JVal)) : String :=
  "\x7b" ++ String.intercalate ", " (l.map fun kv => jsonStr kv.1 ++ ": " ++ jsonVal kv.2) ++ "\x7d"

/-! ### SHA-256 over lists of byte values -/

def w32 (n : Nat) : Nat := n % 4294967296

def rotr32 (r x : Nat) : Nat := w32 ((x >>> r) ||| (x <<< (32 - r)))

def bigS0 (x : Nat) : Nat := rotr32 2 x ^^^ rotr32 13 x ^^^ rotr32 22 x

def bigS1 (x : Nat) : Nat := rotr32 6 x ^^^ rotr32 11 x ^^^ rotr32 25 x

def smallS0 (x : Nat) : Nat := rotr32 7 x ^^^ rotr32 18 x ^^^ (x >>> 3)

def smallS1 (x : Nat) : Nat := rotr32 17 x ^^^ rotr32 19 x ^^^ (x >>> 10)

def shaCh (e f g : Nat) : Nat := (e &&& f) ^^^ ((e ^^^ 4294967295) &&& g)

def shaMaj (a b c : Nat) : Nat := (a &&& b) ^^^ ((a &&& c) ^^^ (b &&& c))

def sha256K : List Nat :=
  [1116352408, 1899447441, 3049323471, 3921009573, 961987163, 1508970993,
   2453635748, 2870763221, 3624381080, 310598401, 607225278, 1426881987,
   1925078388, 2162078206, 2614888103, 3248222580, 3835390401, 4022224774,
   264347078, 604807628, 770255983, 1249150122, 1555081692, 1996064986,
   2554220882, 2821834349, 2952996808, 3210313671, 3336571891, 3584528711,
   113926993, 338241895, 666307205, 773529912, 1294757372, 1396182291,
   1695183700, 1986661051, 2177026350, 2456956037, 2730485921, 2820302411,
   3259730800, 3345764771, 3516065817, 3600352804, 4094571909, 275423344,
   430227734, 506948616, 659060556, 883997877, 958139571, 1322822218,
   1537002063, 1747873779, 1955562222, 2024104815, 2227730452, 2361852424,
   2428436474, 2756734187, 3204031479, 3329325298]

def shaInitH : List Nat :=
  [1779033703, 3144134277, 1013904242, 2773480762,
   1359893119, 2600822924, 528734635, 1541459225]

def sha256LenBytes (n : Nat) : List Nat :=
  [n >>> 56 % 256, n >>> 48 % 256, n >>> 40 % 256, n >>> 32 % 256,
   n >>> 24 % 256, n >>> 16 % 256, n >>> 8 % 256, n % 256]

def sha256Pad (msg : List Nat) : List Nat :=
  let len := msg.length
  let zeros := (64 + 56 - (len + 1) % 64) % 64
  msg ++ 128 :: List.replicate zeros 0 ++ sha256LenBytes (len * 8)

def bytesToWords : List Nat → List Nat
  | b0 :: b1 :: b2 :: b3 :: rest => (b0 * 16777216 + b1 * 65536 + b2 * 256 + b3) :: bytesToWords rest
  | _ => []

def chunkWords : Nat → List Nat → List (List Nat)
  | 0, _ => []
  | _ + 1, [] => []
  | n + 1, l => l.take 16 :: chunkWords n (l.drop 16)

def shaExtend (blk : List Nat) : List Nat :=
  ((List.range 48).foldl
    (fun arr i =>
      let t := i + 16
      arr.push (w32 (smallS1 (arr.getD (t - 2) 0) + arr.getD (t - 7) 0
        + smallS0 (arr.getD (t - 15) 0) + arr.getD (t - 16) 0)))
    blk.toArray).toList

def shaStep (st : Nat × Nat × Nat × Nat × Nat × Nat × Nat × Nat) (kw : Nat × Nat) :
    Nat × Nat × Nat × Nat × Nat × Nat × Nat × Nat :=
  let (a, b, c, d, e, f, g, h) := st
  let (k, wt) := kw
  let t1 := w32 (h + bigS1 e + shaCh e f g + k + wt)
  let t2 := w32 (bigS0 a + shaMaj a b c)
  (w32 (t1 + t2), a, b, c, w32 (d + t1), e, f, g)

def shaCompress (h : List Nat) (blk : List Nat) : List Nat :=
  let w := shaExtend blk
  let s0 := (h.getD 0 0, h.getD 1 0, h.getD 2 0, h.getD 3 0,
             h.getD 4 0, h.getD 5 0, h.getD 6 0, h.getD 7 0)
  let (a, b, c, d, e, f, g, hh) := (List.zip sha256K w).foldl shaStep s0
  [w32 (h.getD 0 0 + a), w32 (h.getD 1 0 + b), w32 (h.getD 2 0 + c), w32 (h.getD 3 0 + d),
   w32 (h.getD 4 0 + e), w32 (h.getD 5 0 + f), w32 (h.getD 6 0 + g), w32 (h.getD 7 0 + hh)]

def sha256Words (msg : List Nat) : List Nat :=
  let ws := bytesToWords (sha256Pad msg)
  (chunkWords ws.length ws).foldl shaCompress shaInitH

def word8Hex (n : Nat) : List Char :=
  (List.range 8).map fun i => hexDigit (n >>> ((7 - i) * 4) &&& 15)

def sha256hex (msg : List Nat) : String := ⟨((sha256Words msg).map word8Hex).flatten⟩

/-- UTF-8 encoding of a string, the Python str.encode() used on lines 140
and 143. -/
def utf8Char (c : Char) : List Nat :=
  let n := c.toNat
  if n < 128 then [n]
  else if n < 2048 then [192 + n / 64, 128 + n % 64]
  else if n < 65536 then [224 + n / 4096, 128 + n / 64 % 64, 128 + n % 64]
  else [240 + n / 262144, 128 + n / 4096 % 64, 128 + n / 64 % 64, 128 + n % 64]

def utf8Bytes (s : String) : List Nat := (s.data.map utf8Char).flatten

/-- The key order used on line 142: sorted(options.items(), key=lambda x: x[0]).
Python uses a stable sort; keys of a dict are distinct, so any sort by key
computes the same list, and we use insertion sort (itself stable). -/
def keyLe (a b : String × JVal) : Prop := a.1 ≤ b.1

instance : DecidableRel keyLe := fun a b => inferInstanceAs (Decidable (a.1 ≤ b.1))

instance : IsTotal (String × JVal) keyLe := ⟨fun a b => le_total a.1 b.1⟩

instance : IsTrans (String × JVal) keyLe := ⟨fun _ _ _ h1 h2 => le_trans h1 h2⟩

/-- Strict key order, used to identify the two sorted lists. -/
def keyLt (a b : String × JVal) : Prop := a.1 < b.1

instance : IsAntisymm (String × JVal) keyLt := ⟨fun _ _ h1 h2 => absurd h2 (lt_asymm h1)⟩

/-- Char is a finite type: every character is a code point below 0x110000. -/
instance : Finite Char :=
  Finite.of_injective
    (fun c : Char => (⟨c.toNat, by
      have h := c.valid
      unfold UInt32.isValidChar Nat.isValidChar at h
      rcases h with h | ⟨_, h⟩
      · exact lt_trans h (by norm_num)
      · exact h⟩ : Fin 1114112))
    (fun a b h => by
      have h2 : a.toNat = b.toNat := by
        have := congrArg Fin.val h
        simpa using this
      have := congrArg Char.ofNat h2
      rwa [Char.ofNat_toNat, Char.ofNat_toNat] at this)

/-- hash_config, lines 138-144: sha256 over the utf-8 name followed by the
json serialization of the key-sorted mapping; returns the hex digest. -/
def hash_config (name : String) (options : List (String × JVal)) : String :=
  let sorted_opts := List.insertionSort keyLe options
  sha256hex (utf8Bytes name ++ utf8Bytes (jsonDumps sorted_opts))

/-! ## Data model: configuration, issues, documents -/

structure Options where
  repo_owner : String
  repo_name : String
  description : String
  authorized_creators : List String
deriving DecidableEq

/-- The mapping that hash_config receives for a feed configuration (a dict
in the source).  The insertion order in config.json is arbitrary; hash_config
sorts the keys, so any order yields the same digest. -/
def Options.pairs (o : Options) : List (String × JVal) :=
  [("repo_owner", .str o.repo_owner), ("repo_name", .str o.repo_name),
   ("description", .str o.description), ("authorized_creators", .arr o.authorized_creators)]

structure RawLabel where
  name : Option String
deriving DecidableEq

/-- A raw issue record from the issue source; every field the source
subscripts can be absent (a missing field raises KeyError in Python,
modelled as a BuildError).  The user object and its login are collapsed to
one field; number is the issue number rendered by str() inside the guid. -/
structure RawIssue where
  userLogin : Option String
  title : Option String
  html_url : Option String
  body : Option String
  created_at : Option String
  labels : Option (List RawLabel)
  number : Option Nat
deriving DecidableEq

structure RssItem where
  title : String
  link : String
  description : String
  pubDate : String
  category : String
  guid : String
deriving DecidableEq

/-- An item of a previously persisted document as the comparator reads it
back: a findtext field is the text of the tag when the tag is present (a
present tag with empty text reads as the empty string) and none when the
tag is absent. -/
structure PrevItem where
  title : Option String
  link : Option String
  description : Option String
  pubDate : Option String
  category : Option String
  guid : Option String
deriving DecidableEq

/-- A previously persisted document, as far as equals and get_feed_info
inspect it: channel/moonlight:configHash and the channel/item list. -/
structure PrevDoc where
  configHash : Option String
  items : List PrevItem
deriving DecidableEq

/-- Result of get_feed_info (lines 146-166).  The last_pub field is parsed
but never used by the rest of the program, so it is not modelled. -/
structure FeedInfo where
  root : Option PrevDoc
  config_hash : Option String
deriving DecidableEq

/-- get_feed_info (lines 146-166): the disk argument is the parsed document
when the per-feed file exists. -/
def get_feed_info (disk : Option PrevDoc) : FeedInfo :=
  match disk with
  | none => { root := none, config_hash := none }
  | some d => { root := some d, config_hash := d.configHash }

/-- RssDocument (lines 50-71): the channel children built by init are kept
as fields; items holds the item elements appended by
add_items_from_issues. -/
structure RssDocument where
  name : String
  repo : String
  authorized : List String
  date : String
  cfg_hash : String
  channelTitle : String
  channelLink : String
  channelDescription : String
  items : List RssItem
deriving DecidableEq

/-- RssDocument construction (lines 51-71).  datetime.now is impure; the
rendered channel pubDate string is passed in as now. -/
def mkRssDocument (name : String) (options : Options) (cfg_hash : String) (now : String) :
    RssDocument :=
  let repo := options.repo_owner ++ "/" ++ options.repo_name
  { name := name
    repo := repo
    authorized := options.authorized_creators.map pyLower
    date := now
    cfg_hash := cfg_hash
    channelTitle := pyLower repo
    channelLink := "https://github.com/" ++ repo
    channelDescription := options.description
    items := [] }

inductive BuildError where
  | missingField (field : String)
  | badDate (s : String)
deriving DecidableEq

/-- Lines 94-99: scan the labels in order, reading the name of each scanned
label, and stop at the first label named critical. -/
def scanLabels : List RawLabel → Except BuildError String
  | [] => .ok "normal"
  | l :: ls =>
    match l.name with
    | none => .error (.missingField "name")
    | some n => if n = "critical" then .ok "high" else scanLabels ls

/-- The item built for one authorized issue (lines 78-102), reading the
fields in source order; a missing field raises KeyError, a malformed date
raises ValueError. -/
def buildOneItem (repo : String) (i : RawIssue) : Except BuildError RssItem :=
  match i.title with
  | none => .error (.missingField "title")
  | some title =>
    match i.html_url with
    | none => .error (.missingField "html_url")
    | some link =>
      match i.body with
      | none => .error (.missingField "body")
      | some body =>
        match i.created_at with
        | none => .error (.missingField "created_at")
        | some created =>
          match isoZToRfc2822 created with
          | none => .error (.badDate created)
          | some pubDate =>
            match i.labels with
            | none => .error (.missingField "labels")
            | some labels =>
              match scanLabels labels with
              | .error e => .error e
              | .ok category =>
                match i.number with
                | none => .error (.missingField "number")
                | some number =>
                  .ok { title := title
                        link := link
                        description := deriveDesc body
                        pubDate := pubDate
                        category := category
                        guid := pyLower (repo ++ "/issue/" ++ toString number) }

/-- The per-issue loop of add_items_from_issues (lines 73-102): the author
login is read first and unauthorized issues are skipped before any other
field is read. -/
def buildItems (repo : String) (authorized : List String) :
    List RawIssue → Except BuildError (List RssItem)
  | [] => .ok []
  | i :: rest =>
    match i.userLogin with
    | none => .error (.missingField "user")
    | some u =>
      if pyLower u ∈ authorized then
        match buildOneItem repo i with
        | .error e => .error e
        | .ok item =>
          match buildItems repo authorized rest with
          | .error e => .error e
          | .ok items => .ok (item :: items)
      else buildItems repo authorized rest

/-- add_items_from_issues (lines 73-104); the trailing whitespace fix at
lines 103-104 only adjusts formatting and is not part of the model. -/
def RssDocument.add_items_from_issues (d : RssDocument) (issues : List RawIssue) :
    Except BuildError RssDocument :=
  (buildItems d.repo d.authorized issues).map fun its => { d with items := d.items ++ its }

/-- Document construction as main performs it at lines 227-229, with the
config hash passed in. -/
def buildDoc (name : String) (options : Options) (cfg_hash : String) (now : String)
    (issues : List RawIssue) : Except BuildError RssDocument :=
  (mkRssDocument name options cfg_hash now).add_items_from_issues issues

/-- Document construction with the config hash computed by main at
line 201. -/
def buildFeed (name : String) (options : Options) (now : String)
    (issues : List RawIssue) : Except BuildError RssDocument :=
  buildDoc name options (hash_config name options.pairs) now issues

/-! ## The comparator (RssDocument.equals, lines 106-131) -/

/-- findtext("guid", default="") applied to a previous item
(lines 117 and 120). -/
def guidKey (p : PrevItem) : String := p.guid.getD ""

/-- One tag comparison at line 129: the current item reads the tag with
default "", the previous item with default None; the values are unequal
whenever the previous tag is absent. -/
def tagEq (cur : String) (prev : Option String) : Bool :=
  match prev with
  | none => false
  | some p => decide (cur = p)

def tagsEq (it : RssItem) (pv : PrevItem) : Bool :=
  tagEq it.title pv.title && tagEq it.link pv.link && tagEq it.description pv.description
    && tagEq it.pubDate pv.pubDate && tagEq it.category pv.category

/-- The guid-keyed dict of previous items (lines 116-118): a Python dict
comprehension keeps the last item for a repeated key, so a lookup returns
the last previous item whose guid key matches. -/
def lookupLast (g : String) (l : List PrevItem) : Option PrevItem :=
  l.reverse.find? fun pv => decide (guidKey pv = g)

/-- Loop body of equals for one current item (lines 119-130). -/
def itemOk (it : RssItem) (last : List PrevItem) : Bool :=
  if it.guid = "" then false
  else
    match lookupLast it.guid last with
    | none => false
    | some pv => tagsEq it pv

/-- Item-level part of equals (lines 112-131). -/
def itemsEqual (cur : List RssItem) (last : List PrevItem) : Bool :=
  decide (cur.length = last.length) && cur.all fun it => itemOk it last

/-- RssDocument.equals (lines 106-131). -/
def RssDocument.equals (d : RssDocument) (feed_info : FeedInfo) : Bool :=
  match feed_info.root with
  | none => false
  | some other =>
    if feed_info.config_hash = some d.cfg_hash then itemsEqual d.items other.items
    else false

/-- First pass of the XML line-ending normalization applied when a
persisted document is read back: each CRLF pair becomes a single LF,
scanning left to right. -/
def collapseCRLFtoLF : List Char → List Char
  | [] => []
  | [c] => [c]
  | c1 :: c2 :: rest =>
    if c1 = '\r' ∧ c2 = '\n' then '\n' :: collapseCRLFtoLF rest
    else c1 :: collapseCRLFtoLF (c2 :: rest)

/-- Second pass: every remaining bare carriage return becomes LF. -/
def crToLF (l : List Char) : List Char := l.map fun c => if c = '\r' then '\n' else c

/-- XML line-ending normalization: the serializer writes carriage returns
in text content literally, and the XML parser maps CRLF and bare CR
to LF. -/
def normChars (l : List Char) : List Char := crToLF (collapseCRLFtoLF l)

def xmlReadText (s : String) : String := ⟨normChars s.data⟩

/-- The text holds no carriage return, so it survives the write/parse
round trip unchanged. -/
def noCR (s : String) : Prop := ∀ c ∈ s.data, ¬ c = '\r'

def itemNoCR (it : RssItem) : Prop :=
  noCR it.title ∧ noCR it.link ∧ noCR it.description ∧ noCR it.pubDate ∧
    noCR it.category ∧ noCR it.guid

instance (s : String) : Decidable (noCR s) :=
  inferInstanceAs (Decidable (∀ c ∈ s.data, ¬ c = '\r'))

instance (it : RssItem) : Decidable (itemNoCR it) :=
  inferInstanceAs (Decidable (_ ∧ _ ∧ _ ∧ _ ∧ _ ∧ _))

/-- The persisted image of a built item: write (lines 133-136) serializes
every tag with its text and get_feed_info parses the file back, which
preserves each text up to XML line-ending normalization. -/
def RssItem.toPrev (it : RssItem) : PrevItem :=
  { title := some (xmlReadText it.title)
    link := some (xmlReadText it.link)
    description := some (xmlReadText it.description)
    pubDate := some (xmlReadText it.pubDate)
    category := some (xmlReadText it.category)
    guid := some (xmlReadText it.guid) }

def persistDoc (d : RssDocument) : PrevDoc :=
  { configHash := some (xmlReadText d.cfg_hash), items := d.items.map RssItem.toPrev }

/-! ## The orchestrating main (lines 184-238) -/

/-- One entry of the request cache file: the conditional token and the
stored config hash; a missing key of the JSON object is none. -/
structure CacheEntry where
  etag : Option String
  config_hash : Option String
deriving DecidableEq

/-- The outcome of the bounded fetch at lines 217-224: an uncaught
transport-level failure or timeout, a 304 response, any other non-200
status, or a 200 response with an optional etag header and the issue
list payload. -/
inductive FetchResult where
  | transportError
  | notModified
  | httpError
  | ok (etagHeader : Option String) (issues : List RawIssue)
deriving DecidableEq

/-- An exception that escapes main and terminates the run. -/
inductive RunError where
  | transport (feed : String)
  | build (feed : String) (e : BuildError)
deriving DecidableEq

/-- The inputs of one run: flags, the loaded cache file, the configuration
in file order, the prior on-disk documents by feed name, the per-feed fetch
outcome, and the rendered generation timestamp. -/
structure RunInput where
  force : Bool
  enable_cache : Bool
  cache_file : Option (List (String × CacheEntry))
  config : List (String × Options)
  disk : String → Option PrevDoc
  fetch : String → FetchResult
  now : String

/-- The observable outcome of a run: the documents written, the cache file
written (none when not written), the printed token, and the uncaught error
when the run aborted. -/
structure RunOutcome where
  written : List (String × RssDocument)
  cacheOut : Option (List (String × CacheEntry))
  token : Option String
  error : Option RunError
deriving DecidableEq

/-- Lines 191-193 together with read_cache (lines 168-172). -/
def read_cache (inp : RunInput) : List (String × CacheEntry) :=
  if inp.enable_cache then inp.cache_file.getD [] else []

/-- Python dict inequality for the cache mapping at line 233:
order-independent content comparison of the two mappings. -/
def dictBEq (a b : List (String × CacheEntry)) : Bool :=
  (a.all fun kv => decide (b.lookup kv.1 = some kv.2))
    && (b.all fun kv => decide (a.lookup kv.1 = some kv.2))

/-- The per-feed loop of main (lines 197-232), carrying new_cache, the
need_commit flag and the documents written so far. -/
def mainLoop (inp : RunInput) (cache : List (String × CacheEntry)) :
    List (String × Options) → List (String × CacheEntry) → Bool →
    List (String × RssDocument) →
    List (String × CacheEntry) × Bool × List (String × RssDocument) × Option RunError
  | [], nc, commit, wr => (nc, commit, wr, none)
  | (name, options) :: rest, nc, commit, wr =>
    let repo_cache := (cache.lookup name).getD { etag := none, config_hash := none }
    let cfg_hash := hash_config name options.pairs
    let entry := { repo_cache with config_hash := some cfg_hash }
    let feed_info := get_feed_info (inp.disk name)
    match inp.fetch name with
    | .transportError => (nc, commit, wr, some (.transport name))
    | .notModified => mainLoop inp cache rest (nc ++ [(name, entry)]) commit wr
    | .httpError => mainLoop inp cache rest (nc ++ [(name, entry)]) commit wr
    | .ok etagHeader issues =>
      let entry := match etagHeader with
        | some e => { entry with etag := some e }
        | none => entry
      match buildDoc name options cfg_hash inp.now issues with
      | .error e => (nc, commit, wr, some (.build name e))
      | .ok doc =>
        if !doc.equals feed_info || inp.force then
          mainLoop inp cache rest (nc ++ [(name, entry)]) true (wr ++ [(name, doc)])
        else mainLoop inp cache rest (nc ++ [(name, entry)]) commit wr

/-- main (lines 184-238) as a function from run inputs to the observable
outcome; named runMain since Lean reserves the name main for an IO entry
point.  An uncaught exception (transport failure at the fetch on
line 218, or a missing issue field while building at line 229) terminates
the run: nothing further is written and no token is printed. -/
def runMain (inp : RunInput) : RunOutcome :=
  let cache := read_cache inp
  match mainLoop inp cache inp.config [] false [] with
  | (nc, commit, wr, none) =>
    { written := wr
      cacheOut := if !dictBEq nc cache && inp.enable_cache then some nc else none
      token := some (if commit then "commit" else "skip")
      error := none }
  | (_, _, wr, some e) =>
    { written := wr, cacheOut := none, token := none, error := some e }

/-! ## Statement-side predicates used by the claims -/

/-- Claim C1: a current item matches a previous item when the previous guid
key equals the current guid and the five compared fields agree. -/
def prevFieldsMatch (it : RssItem) (pv : PrevItem) : Prop :=
  guidKey pv = it.guid ∧ pv.title = some it.title ∧ pv.link = some it.link ∧
    pv.description = some it.description ∧ pv.pubDate = some it.pubDate ∧
    pv.category = some it.category

/-- The characterization claimed by C1: a previous document exists, its
stored config hash equals the current hash, the item counts agree, and
every current item matches some previous item. -/
def C1rhs (d : RssDocument) (disk : Option PrevDoc) : Prop :=
  match disk with
  | none => False
  | some p =>
    p.configHash = some d.cfg_hash ∧ d.items.length = p.items.length ∧
      ∀ it ∈ d.items, ∃ pv ∈ p.items, prevFieldsMatch it pv

instance (it : RssItem) (pv : PrevItem) : Decidable (prevFieldsMatch it pv) :=
  inferInstanceAs (Decidable (_ ∧ _ ∧ _ ∧ _ ∧ _ ∧ _))

instance (d : RssDocument) (disk : Option PrevDoc) : Decidable (C1rhs d disk) :=
  match disk with
  | none => isFalse fun h => h
  | some _ => inferInstanceAs (Decidable (_ ∧ _ ∧ _))

/-- The truncation step of the description contract. -/
def truncate512 (d : List Char) : List Char :=
  if d.length > 512 then d.take 509 ++ ['.', '.', '.'] else d

/-- Claim C5 exactly as stated: the first paragraph of the raw body (no
initial strip), remaining line breaks collapsed, then truncated. -/
def claimC5Desc (body : String) : String :=
  ⟨truncate512 (collapseCRLF (beforeSep crlfcrlf body.data))⟩

/-- Claim C5 as amended: the paragraph is taken after stripping surrounding
whitespace from the body, as the source does at line 81. -/
def amendedC5Para (body : String) : List Char :=
  collapseCRLF (beforeSep crlfcrlf (pyStripChars body.data))

/-- The cache entry that a completed run records for a feed: the loaded
entry with its stored config hash replaced by the current one and, for a
successful fetch carrying an etag header, the etag replaced. -/
def feedFinalEntry (cache : List (String × CacheEntry)) (name : String) (o : Options)
    (fr : FetchResult) : CacheEntry :=
  let base := (cache.lookup name).getD { etag := none, config_hash := none }
  let e := { base with config_hash := some (hash_config name o.pairs) }
  match fr with
  | .ok (some t) _ => { e with etag := some t }
  | _ => e

/-- The feed was fetched successfully (HTTP 200). -/
def fetchedOk (inp : RunInput) (fo : String × Options) : Prop :=
  ∃ et iss, inp.fetch fo.1 = .ok et iss

/-- The feed was fetched successfully and its freshly built document
compared unequal to the prior persisted document. -/
def comparedUnequal (inp : RunInput) (fo : String × Options) : Prop :=
  ∃ et iss doc, inp.fetch fo.1 = .ok et iss ∧
    buildDoc fo.1 fo.2 (hash_config fo.1 fo.2.pairs) inp.now iss = .ok doc ∧
    doc.equals (get_feed_info (inp.disk fo.1)) = false

/-- The commit condition of claim C7: some successfully fetched feed
compared unequal, or the force flag is set and some feed was successfully
fetched. -/
def C7cond (inp : RunInput) : Prop :=
  (∃ fo ∈ inp.config, comparedUnequal inp fo) ∨
    (inp.force = true ∧ ∃ fo ∈ inp.config, fetchedOk inp fo)

/-- The per-feed cause of need_commit at line 230. -/
def feedCommits (inp : RunInput) (fo : String × Options) : Prop :=
  ∃ et iss doc, inp.fetch fo.1 = .ok et iss ∧
    buildDoc fo.1 fo.2 (hash_config fo.1 fo.2.pairs) inp.now iss = .ok doc ∧
    (doc.equals (get_feed_info (inp.disk fo.1)) = false ∨ inp.force = true)

/-! ## Concrete data used in the witnesses and counterexamples -/

def exOpts : Options := ⟨"o", "r", "d", ["Alice"]⟩

def exOpts2 : Options := ⟨"o2", "r2", "d2", ["Bob"]⟩

def exIssue1 : RawIssue :=
  ⟨some "alice", some "T1", some "u", some "B", some "2022-01-02T03:04:05Z", some [], some 1⟩

/-- The same issue number as exIssue1 but a different title. -/
def exIssue1b : RawIssue := { exIssue1 with title := some "T2" }

/-- A distinct issue number. -/
def exIssue2 : RawIssue := { exIssue1 with title := some "T2", number := some 2 }

def exIssueNoTitle : RawIssue := { exIssue1 with title := none }

def exPub : String := "Sun, 02 Jan 2022 03:04:05 GMT"

def exItem1 : RssItem := ⟨"T1", "u", "B", exPub, "normal", "o/r/issue/1"⟩

def exItem1b : RssItem := ⟨"T2", "u", "B", exPub, "normal", "o/r/issue/1"⟩

def exItem2 : RssItem := ⟨"T2", "u", "B", exPub, "normal", "o/r/issue/2"⟩

def exDocBase : RssDocument :=
  ⟨"f", "o/r", ["alice"], "now", "h", "o/r", "https://github.com/o/r", "d", []⟩

def c1wDoc : RssDocument := { exDocBase with items := [exItem1] }

def c1wPrev : PrevDoc := ⟨some "h", [exItem1.toPrev]⟩

def c1xDoc : RssDocument := { exDocBase with items := [exItem1, exItem1] }

/-- A previous document with two items sharing one guid. -/
def c1xPrev : PrevDoc := ⟨some "h", [exItem1.toPrev, exItem1b.toPrev]⟩

def c2Doc1 : RssDocument :=
  { exDocBase with date := "t1", cfg_hash := hash_config "f" exOpts.pairs,
                   items := [exItem1, exItem2] }

def c2Doc2 : RssDocument := { c2Doc1 with date := "t2" }

def c2xDoc1 : RssDocument :=
  { exDocBase with date := "t1", cfg_hash := hash_config "f" exOpts.pairs,
                   items := [exItem1, exItem1b] }

def c2xDoc2 : RssDocument := { c2xDoc1 with date := "t2" }

def c9Doc : RssDocument := { exDocBase with items := [⟨"t", "l", "s", "p", "normal", ""⟩] }

def c9Prev : PrevDoc := ⟨some "h", [⟨some "t", some "l", some "s", some "p", some "normal", some ""⟩]⟩

def c3Input : RunInput :=
  ⟨false, false, none, [("f1", exOpts), ("f2", exOpts2)], fun _ => none,
   fun n => if n = "f1" then .transportError else .ok none [], "now"⟩

def c8Input : RunInput :=
  ⟨false, false, none, [("f1", exOpts), ("f2", exOpts2)], fun _ => none,
   fun n => if n = "f1" then .ok none [exIssueNoTitle] else .ok none [], "now"⟩

def c4Entry : CacheEntry := ⟨some "E", none⟩

def c4Input : RunInput :=
  ⟨false, true, some [("f", c4Entry)], [("f", exOpts)], fun _ => none,
   fun _ => .httpError, "now"⟩

def c4nc : List (String × CacheEntry) := [("f", ⟨some "E", some (hash_config "f" exOpts.pairs)⟩)]

def c4Out : RunOutcome := ⟨[], some c4nc, some "skip", none⟩

def c7Input : RunInput :=
  ⟨false, false, none, [("f", exOpts)], fun _ => none, fun _ => .ok none [], "now"⟩

def c7Doc : RssDocument := { exDocBase with cfg_hash := hash_config "f" exOpts.pairs }

def c7Out : RunOutcome := ⟨[("f", c7Doc)], none, some "commit", none⟩

def c10Input : RunInput :=
  ⟨false, true, some [("old", c4Entry)], [("f", exOpts)], fun _ => none,
   fun _ => .httpError, "now"⟩

def c10nc : List (String × CacheEntry) := [("f", ⟨none, some (hash_config "f" exOpts.pairs)⟩)]

def c5Issue : RawIssue := { exIssue1 with body := some "\r\n\r\nB" }

def c6a : List (String × JVal) := [("a", .str "1"), ("b", .str "2")]

def c6b : List (String × JVal) := [("b", .str "2"), ("a", .str "1")]

/-! ## Helper lemmas -/

theorem tagEq_true_iff (c : String) (o : Option String) : tagEq c o = true ↔ o = some c := by
  cases o with
  | none => simp [tagEq]
  | some p => simp [tagEq, eq_comm]

theorem tagsEq_true_iff (it : RssItem) (pv : PrevItem) :
    tagsEq it pv = true ↔
      (pv.title = some it.title ∧ pv.link = some it.link ∧
        pv.description = some it.description ∧ pv.pubDate = some it.pubDate ∧
        pv.category = some it.category) := by
  simp [tagsEq, Bool.and_eq_true, tagEq_true_iff, and_assoc]

theorem equals_no_prev_doc (d : RssDocument) : d.equals (get_feed_info none) = false := rfl

theorem equals_hash_match (d : RssDocument) (p : PrevDoc) (h : p.configHash = some d.cfg_hash) :
    d.equals (get_feed_info (some p)) = itemsEqual d.items p.items := by
  simp [RssDocument.equals, get_feed_info, h]

theorem equals_hash_mismatch (d : RssDocument) (p : PrevDoc)
    (h : ¬ p.configHash = some d.cfg_hash) :
    d.equals (get_feed_info (some p)) = false := by
  simp [RssDocument.equals, get_feed_info, h]

theorem lookupLast_mem {g : String} {l : List PrevItem} {pv : PrevItem}
    (h : lookupLast g l = some pv) : pv ∈ l ∧ guidKey pv = g := by
  unfold lookupLast at h
  have h1 := List.mem_of_find?_eq_some h
  have h2 := List.find?_some h
  exact ⟨List.mem_reverse.mp h1, of_decide_eq_true h2⟩

theorem find?_guid_unique :
    ∀ {l : List PrevItem} {pv : PrevItem} {g : String}, (l.map guidKey).Nodup → pv ∈ l →
      guidKey pv = g → l.find? (fun x => decide (guidKey x = g)) = some pv := by
  intro l
  induction l with
  | nil => intro pv g _ h; cases h
  | cons x xs ih =>
    intro pv g hnd hmem hg
    rw [List.map_cons, List.nodup_cons] at hnd
    obtain ⟨hnotin, hndtl⟩ := hnd
    rcases List.mem_cons.mp hmem with rfl | hx
    · exact List.find?_cons_of_pos xs (decide_eq_true hg)
    · have hne : ¬ guidKey x = g := fun he =>
        hnotin (by rw [he, ← hg]; exact List.mem_map_of_mem guidKey hx)
      rw [List.find?_cons_of_neg xs (by simpa using hne)]
      exact ih hndtl hx hg

theorem lookupLast_unique {l : List PrevItem} {pv : PrevItem} {g : String}
    (hnd : (l.map guidKey).Nodup) (hmem : pv ∈ l) (hg : guidKey pv = g) :
    lookupLast g l = some pv := by
  unfold lookupLast
  refine find?_guid_unique ?_ (List.mem_reverse.mpr hmem) hg
  rw [List.map_reverse]
  exact List.nodup_reverse.mpr hnd

theorem itemsEqual_true_iff {cur : List RssItem} {last : List PrevItem}
    (hg : ∀ it ∈ cur, it.guid ≠ "") (hnd : (last.map guidKey).Nodup) :
    itemsEqual cur last = true ↔
      (cur.length = last.length ∧ ∀ it ∈ cur, ∃ pv ∈ last, prevFieldsMatch it pv) := by
  unfold itemsEqual
  rw [Bool.and_eq_true, decide_eq_true_eq, List.all_eq_true]
  constructor
  · rintro ⟨hlen, hall⟩
    refine ⟨hlen, fun it hmem => ?_⟩
    have h1 := hall it hmem
    unfold itemOk at h1
    rw [if_neg (hg it hmem)] at h1
    cases hl : lookupLast it.guid last with
    | none => rw [hl] at h1; cases h1
    | some pv =>
      rw [hl] at h1
      obtain ⟨hm, hk⟩ := lookupLast_mem hl
      obtain ⟨f1, f2, f3, f4, f5⟩ := (tagsEq_true_iff it pv).mp h1
      exact ⟨pv, hm, hk, f1, f2, f3, f4, f5⟩
  · rintro ⟨hlen, hall⟩
    refine ⟨hlen, fun it hmem => ?_⟩
    obtain ⟨pv, hm, hk, f1, f2, f3, f4, f5⟩ := hall it hmem
    unfold itemOk
    rw [if_neg (hg it hmem), lookupLast_unique hnd hm hk]
    exact (tagsEq_true_iff it pv).mpr ⟨f1, f2, f3, f4, f5⟩
theorem buildOneItem_ok_elim {repo : String} {i : RawIssue} {item : RssItem}
    (h : buildOneItem repo i = .ok item) :
    ∃ title link body created pubDate labels category number,
      i.title = some title ∧ i.html_url = some link ∧ i.body = some body ∧
        i.created_at = some created ∧ isoZToRfc2822 created = some pubDate ∧
        i.labels = some labels ∧ scanLabels labels = .ok category ∧
        i.number = some number ∧
        item = { title := title, link := link, description := deriveDesc body,
                 pubDate := pubDate, category := category,
                 guid := pyLower (repo ++ "/issue/" ++ toString number) } := by
  unfold buildOneItem at h
  cases ht : i.title with
  | none => simp [ht] at h
  | some title =>
  simp only [ht] at h
  cases hl : i.html_url with
  | none => simp [hl] at h
  | some link =>
  simp only [hl] at h
  cases hb : i.body with
  | none => simp [hb] at h
  | some body =>
  simp only [hb] at h
  cases hc : i.created_at with
  | none => simp [hc] at h
  | some created =>
  simp only [hc] at h
  cases hp : isoZToRfc2822 created with
  | none => simp [hp] at h
  | some pubDate =>
  simp only [hp] at h
  cases hlb : i.labels with
  | none => simp [hlb] at h
  | some labels =>
  simp only [hlb] at h
  cases hcat : scanLabels labels with
  | error e => simp [hcat] at h
  | ok category =>
  simp only [hcat] at h
  cases hn : i.number with
  | none => simp [hn] at h
  | some number =>
  simp only [hn] at h
  exact ⟨title, link, body, created, pubDate, labels, category, number,
    by simp [ht], by simp [hl], by simp [hb], by simp [hc], by simp [hp], by simp [hlb],
    by simp [hcat], by simp [hn], by cases h; rfl⟩

theorem string_data_append (s t : String) : (s ++ t).data = s.data ++ t.data := rfl

theorem buildOneItem_guid_ne {repo : String} {i : RawIssue} {item : RssItem}
    (h : buildOneItem repo i = .ok item) : item.guid ≠ "" := by
  obtain ⟨t, l, b, c, p, lb, cat, n, _, _, _, _, _, _, _, _, he⟩ := buildOneItem_ok_elim h
  subst he
  intro hempty
  have hg2 : pyLower (repo ++ "/issue/" ++ toString n) = "" := hempty
  have hdata : ((repo ++ "/issue/" ++ toString n).data.map Char.toLower) = [] :=
    congrArg String.data hg2
  have hnil := List.map_eq_nil_iff.mp hdata
  simp only [string_data_append] at hnil
  rcases List.append_eq_nil.mp hnil with ⟨h3, h4⟩
  exact absurd (List.append_eq_nil.mp h3).2 (by decide)

theorem buildItems_guid_ne {repo : String} {auth : List String} :
    ∀ {issues : List RawIssue} {its : List RssItem}, buildItems repo auth issues = .ok its →
      ∀ it ∈ its, it.guid ≠ "" := by
  intro issues
  induction issues with
  | nil =>
    intro its h it hmem
    unfold buildItems at h
    cases h
    cases hmem
  | cons i rest ih =>
    intro its h it hmem
    unfold buildItems at h
    cases hu : i.userLogin with
    | none => simp [hu] at h
    | some u =>
    simp only [hu] at h
    by_cases hauth : pyLower u ∈ auth
    · rw [if_pos hauth] at h
      cases hb : buildOneItem repo i with
      | error e => simp [hb] at h
      | ok item =>
      simp only [hb] at h
      cases hr : buildItems repo auth rest with
      | error e => simp [hr] at h
      | ok items =>
      simp only [hr] at h
      cases h
      rcases List.mem_cons.mp hmem with rfl | hx
      · exact buildOneItem_guid_ne hb
      · exact ih hr it hx
    · rw [if_neg hauth] at h
      exact ih h it hmem

theorem buildDoc_ok_parts {name : String} {options : Options} {cfg now : String}
    {issues : List RawIssue} {d : RssDocument}
    (h : buildDoc name options cfg now issues = .ok d) :
    buildItems (options.repo_owner ++ "/" ++ options.repo_name)
        (options.authorized_creators.map pyLower) issues = .ok d.items ∧
      d.cfg_hash = cfg := by
  unfold buildDoc RssDocument.add_items_from_issues mkRssDocument at h
  cases hb : buildItems (options.repo_owner ++ "/" ++ options.repo_name)
      (options.authorized_creators.map pyLower) issues with
  | error e => rw [hb] at h; cases h
  | ok its =>
    rw [hb] at h
    cases h
    simp

theorem buildDoc_guid_ne {name : String} {options : Options} {cfg now : String}
    {issues : List RawIssue} {d : RssDocument}
    (h : buildDoc name options cfg now issues = .ok d) :
    ∀ it ∈ d.items, it.guid ≠ "" :=
  buildItems_guid_ne (buildDoc_ok_parts h).1

/-! ## Claim C9 -/

/-- C9: if any item of the current feed model has an empty guid text (for a
freshly built model the guid tag is always present, so a missing guid also
reads back as the empty default), the comparator returns false whatever the
previous document holds, even when the previous document has an item with
the same empty guid and identical fields. -/
theorem C9_empty_guid_equals_false (d : RssDocument) (fi : FeedInfo)
    (h : ∃ it ∈ d.items, it.guid = "") : d.equals fi = false := by
  obtain ⟨it, hmem, hg⟩ := h
  unfold RssDocument.equals
  cases hr : fi.root with
  | none => rfl
  | some other =>
    dsimp only
    by_cases hh : fi.config_hash = some d.cfg_hash
    · rw [if_pos hh]
      have hfalse : itemOk it other.items = false := by simp [itemOk, hg]
      have hall : (d.items.all fun x => itemOk x other.items) = false := by
        cases hc : d.items.all fun x => itemOk x other.items with
        | false => rfl
        | true => exact absurd (List.all_eq_true.mp hc it hmem) (by simp [hfalse])
      simp [itemsEqual, hall]
    · rw [if_neg hh]

theorem C9_empty_guid_equals_false_witness :
    (∃ it ∈ c9Doc.items, it.guid = "") ∧
      c9Doc.equals (get_feed_info (some c9Prev)) = false :=
  ⟨by decide, C9_empty_guid_equals_false c9Doc (get_feed_info (some c9Prev)) (by decide)⟩

/-! ## Claims C3 and C8: uncaught per-feed failures abort the run -/

/-- C3: a transport-level failure or timeout while fetching feed f1 is not
caught by main; the run terminates with the exception before the second
configured feed is processed, nothing is written, and no commit or skip
token is emitted, contradicting the claimed recoverable per-feed handling. -/
theorem C3_transport_error_aborts_run :
    runMain c3Input = ⟨[], none, none, some (.transport "f1")⟩ := rfl

/-- C8: an issue record missing its title in feed f1 makes the model build
raise an uncaught error; the run terminates before the second configured
feed is processed, nothing is written (so the prior document and cache file
stay untouched), and no token is emitted, contradicting the claimed
continued processing of the remaining feeds. -/
theorem C8_missing_field_aborts_run :
    runMain c8Input = ⟨[], none, none, some (.build "f1" (.missingField "title"))⟩ := rfl

/-! ## Claim C6 -/

theorem sorted_lt_of_le_nodup {l : List (String × JVal)} (hs : List.Sorted keyLe l)
    (hnd : (l.map Prod.fst).Nodup) : List.Sorted keyLt l := by
  have hne : List.Pairwise (fun a b : String × JVal => a.1 ≠ b.1) l := List.pairwise_map.mp hnd
  exact (hs.and hne).imp fun hab => lt_of_le_of_ne hab.1 hab.2

theorem insertionSort_key_eq {o1 o2 : List (String × JVal)}
    (hnd : (o1.map Prod.fst).Nodup) (hp : o1.Perm o2) :
    List.insertionSort keyLe o1 = List.insertionSort keyLe o2 := by
  have p1 := List.perm_insertionSort keyLe o1
  have p2 := List.perm_insertionSort keyLe o2
  have hnd2 : (o2.map Prod.fst).Nodup := ((hp.map Prod.fst).nodup_iff).mp hnd
  have hnds1 : ((List.insertionSort keyLe o1).map Prod.fst).Nodup :=
    ((p1.map Prod.fst).nodup_iff).mpr hnd
  have hnds2 : ((List.insertionSort keyLe o2).map Prod.fst).Nodup :=
    ((p2.map Prod.fst).nodup_iff).mpr hnd2
  exact List.eq_of_perm_of_sorted (p1.trans (hp.trans p2.symm))
    (sorted_lt_of_le_nodup (List.sorted_insertionSort keyLe o1) hnds1)
    (sorted_lt_of_le_nodup (List.sorted_insertionSort keyLe o2) hnds2)

theorem word8Hex_length (w : Nat) : (word8Hex w).length = 8 := by
  unfold word8Hex
  rw [List.length_map, List.length_range]

theorem shaCompress_length (h blk : List Nat) : (shaCompress h blk).length = 8 := by
  unfold shaCompress
  dsimp only
  rcases hfold : (List.zip sha256K (shaExtend blk)).foldl shaStep
      (h.getD 0 0, h.getD 1 0, h.getD 2 0, h.getD 3 0,
       h.getD 4 0, h.getD 5 0, h.getD 6 0, h.getD 7 0) with ⟨a, b, c, d, e, f, g, hh⟩
  rfl

theorem foldl_shaCompress_length (chunks : List (List Nat)) :
    ∀ h : List Nat, h.length = 8 → (chunks.foldl shaCompress h).length = 8 := by
  induction chunks with
  | nil => intro h hh; exact hh
  | cons blk rest ih =>
    intro h hh
    rw [List.foldl_cons]
    exact ih _ (shaCompress_length h blk)

theorem sha256Words_length (msg : List Nat) : (sha256Words msg).length = 8 := by
  unfold sha256Words
  exact foldl_shaCompress_length _ _ rfl

theorem sha256hex_length (msg : List Nat) : (sha256hex msg).length = 64 := by
  show ((sha256Words msg).map word8Hex).flatten.length = 64
  rw [List.length_flatten, List.map_map]
  have h1 : (sha256Words msg).map (List.length ∘ word8Hex) =
      (sha256Words msg).map (Function.const Nat 8) :=
    List.map_congr_left fun w _ => word8Hex_length w
  rw [h1, List.map_const, List.sum_replicate, sha256Words_length, smul_eq_mul]

theorem hash_config_length (name : String) (o : List (String × JVal)) :
    (hash_config name o).length = 64 :=
  sha256hex_length _

theorem deriveDesc_eq (body : String) :
    deriveDesc body = ⟨truncate512 (amendedC5Para body)⟩ := by
  unfold deriveDesc amendedC5Para truncate512
  dsimp only
  split <;> rfl

/-- C5 as amended: for an authorized issue the built description comes from
the body stripped of surrounding whitespace first; the substring before the
first blank line, with CRLF line breaks collapsed to spaces, is kept
unchanged when at most 512 characters long, and otherwise the description
is exactly its first 509 characters followed by three dots, 512 characters
in total. -/
theorem C5_description_contract (repo : String) (i : RawIssue) (item : RssItem) (body : String)
    (h : buildOneItem repo i = .ok item) (hb : i.body = some body) :
    ((amendedC5Para body).length > 512 →
        item.description.data = (amendedC5Para body).take 509 ++ ['.', '.', '.'] ∧
          item.description.length = 512) ∧
      ((amendedC5Para body).length ≤ 512 → item.description.data = amendedC5Para body) := by
  obtain ⟨t, l, b, c, p, lb, cat, n, _, _, hbody, _, _, _, _, _, he⟩ := buildOneItem_ok_elim h
  rw [hb] at hbody
  have hbb : body = b := by cases hbody; rfl
  subst hbb
  have hdesc : item.description = deriveDesc body := by rw [he]
  rw [hdesc, deriveDesc_eq]
  constructor
  · intro hlen
    constructor
    · show (truncate512 (amendedC5Para body)) = _
      unfold truncate512
      rw [if_pos hlen]
    · show (truncate512 (amendedC5Para body)).length = 512
      unfold truncate512
      rw [if_pos hlen]
      rw [List.length_append, List.length_take]
      have : min 509 (amendedC5Para body).length = 509 := by omega
      rw [this]
      rfl
  · intro hlen
    show (truncate512 (amendedC5Para body)) = _
    unfold truncate512
    rw [if_neg (by omega)]

theorem C5_description_contract_witness :
    buildOneItem "o/r" exIssue1 = .ok exItem1 ∧ exIssue1.body = some "B" ∧
      (((amendedC5Para "B").length > 512 →
          exItem1.description.data = (amendedC5Para "B").take 509 ++ ['.', '.', '.'] ∧
            exItem1.description.length = 512) ∧
        ((amendedC5Para "B").length ≤ 512 → exItem1.description.data = amendedC5Para "B")) :=
  ⟨rfl, rfl, C5_description_contract "o/r" exIssue1 exItem1 "B" rfl rfl⟩

/-- C5 as stated is false: the claimed formula takes the substring of the
raw body before the first blank line, but the source strips the body first
(line 81).  For an authorized issue whose body starts with a blank line the
built description is B while the claimed formula yields the empty string. -/
theorem C5_description_claim_false :
    buildOneItem "o/r" c5Issue = .ok exItem1 ∧ c5Issue.body = some "\r\n\r\nB" ∧
      exItem1.description ≠ claimC5Desc "\r\n\r\nB" := ⟨rfl, rfl, by decide⟩

/-! ## Claim C1 -/

/-- C1 as amended: for a freshly built model and a prior persisted document
whose item guid keys are pairwise distinct, the comparator returns true
exactly when a previous document exists, its stored config hash equals the
current config hash, the item counts agree, and every current item has a
previous item with the same guid and equal title, link, description,
pubDate and category; in particular equality is insensitive to item
order. -/
theorem C1_equals_characterization (name : String) (options : Options) (cfg now : String)
    (issues : List RawIssue) (d : RssDocument) (disk : Option PrevDoc)
    (hb : buildDoc name options cfg now issues = .ok d)
    (hnd : ∀ p, disk = some p → (p.items.map guidKey).Nodup) :
    d.equals (get_feed_info disk) = true ↔ C1rhs d disk := by
  have hg : ∀ it ∈ d.items, it.guid ≠ "" := buildDoc_guid_ne hb
  cases disk with
  | none => simp [equals_no_prev_doc, C1rhs]
  | some p =>
    by_cases hh : p.configHash = some d.cfg_hash
    · rw [equals_hash_match d p hh, itemsEqual_true_iff hg (hnd p rfl)]
      unfold C1rhs
      simp [hh]
    · rw [equals_hash_mismatch d p hh]
      unfold C1rhs
      simp [hh]

theorem C1_equals_characterization_witness :
    buildDoc "f" exOpts "h" "now" [exIssue1] = .ok c1wDoc ∧
      (∀ p, (some c1wPrev : Option PrevDoc) = some p → (p.items.map guidKey).Nodup) ∧
      (c1wDoc.equals (get_feed_info (some c1wPrev)) = true ↔ C1rhs c1wDoc (some c1wPrev)) :=
  ⟨rfl, fun p hp => by cases hp; decide,
    C1_equals_characterization "f" exOpts "h" "now" [exIssue1] c1wDoc (some c1wPrev) rfl
      (fun p hp => by cases hp; decide)⟩

/-- C1 as stated is false when the previous document repeats a guid: the
comparator matches each current item against the last previous item with
its guid, not against any matching one.  Here every current item has a
previous item with equal fields, the counts and the stored hash agree, yet
equals returns false. -/
theorem C1_claim_false_on_duplicate_guids :
    buildDoc "f" exOpts "h" "now" [exIssue1, exIssue1] = .ok c1xDoc ∧
      C1rhs c1xDoc (some c1xPrev) ∧
      c1xDoc.equals (get_feed_info (some c1xPrev)) = false := ⟨rfl, by decide, by decide⟩

/-! ## Claim C2 -/

theorem collapseCRLFtoLF_eq_self :
    ∀ (l : List Char), (∀ c ∈ l, ¬ c = '\r') → collapseCRLFtoLF l = l
  | [] => fun _ => rfl
  | [c] => fun _ => rfl
  | c1 :: c2 :: rest => fun h => by
    have hc1 : ¬ c1 = '\r' := h c1 (by simp)
    rw [collapseCRLFtoLF, if_neg fun hand => hc1 hand.1,
      collapseCRLFtoLF_eq_self (c2 :: rest) fun x hx => h x (List.mem_cons_of_mem c1 hx)]

theorem crToLF_eq_self {l : List Char} (h : ∀ c ∈ l, ¬ c = '\r') : crToLF l = l := by
  unfold crToLF
  rw [List.map_congr_left fun c hc => if_neg (h c hc)]
  exact List.map_id l

theorem xmlReadText_eq_self {s : String} (h : noCR s) : xmlReadText s = s := by
  show (⟨normChars s.data⟩ : String) = s
  unfold normChars
  rw [collapseCRLFtoLF_eq_self s.data h, crToLF_eq_self h]

theorem hexDigit_ne_cr {m : Nat} (hm : m < 16) : ¬ hexDigit m = '\r' := by
  have hall : ∀ m < 16, ¬ hexDigit m = '\r' := by decide
  exact hall m hm

theorem word8Hex_ne_cr (w : Nat) : ∀ c ∈ word8Hex w, ¬ c = '\r' := by
  intro c hc
  unfold word8Hex at hc
  obtain ⟨i, _, hcc⟩ := List.mem_map.mp hc
  rw [← hcc]
  exact hexDigit_ne_cr (lt_of_le_of_lt Nat.and_le_right (by norm_num))

theorem sha256hex_no_cr (msg : List Nat) : noCR (sha256hex msg) := by
  intro c hc
  have hc2 : c ∈ ((sha256Words msg).map word8Hex).flatten := hc
  obtain ⟨l, hl, hcl⟩ := List.mem_flatten.mp hc2
  obtain ⟨w, _, hw⟩ := List.mem_map.mp hl
  rw [← hw] at hcl
  exact word8Hex_ne_cr w c hcl

theorem xmlReadText_hash_config (name : String) (o : List (String × JVal)) :
    xmlReadText (hash_config name o) = hash_config name o :=
  xmlReadText_eq_self (sha256hex_no_cr _)

theorem itemsEqual_toPrev {its : List RssItem} (hg : ∀ it ∈ its, it.guid ≠ "")
    (hnd : (its.map RssItem.guid).Nodup) (hcr : ∀ it ∈ its, itemNoCR it) :
    itemsEqual its (its.map RssItem.toPrev) = true := by
  unfold itemsEqual
  rw [Bool.and_eq_true, decide_eq_true_eq, List.all_eq_true]
  refine ⟨by rw [List.length_map], fun it hmem => ?_⟩
  obtain ⟨hcrt, hcrl, hcrd, hcrp, hcrc, hcrg⟩ := hcr it hmem
  unfold itemOk
  rw [if_neg (hg it hmem)]
  have hkey : guidKey it.toPrev = it.guid := by
    show xmlReadText it.guid = it.guid
    exact xmlReadText_eq_self hcrg
  have hndk : ((its.map RssItem.toPrev).map guidKey).Nodup := by
    rw [List.map_map]
    have heq : its.map (guidKey ∘ RssItem.toPrev) = its.map RssItem.guid :=
      List.map_congr_left fun x hx => by
        show xmlReadText x.guid = x.guid
        exact xmlReadText_eq_self (hcr x hx).2.2.2.2.2
    rw [heq]
    exact hnd
  rw [lookupLast_unique hndk (List.mem_map_of_mem RssItem.toPrev hmem) hkey]
  simp [tagsEq, tagEq, RssItem.toPrev, xmlReadText_eq_self hcrt, xmlReadText_eq_self hcrl,
    xmlReadText_eq_self hcrd, xmlReadText_eq_self hcrp, xmlReadText_eq_self hcrc]

theorem feedFinalEntry_hash (cache : List (String × CacheEntry)) (name : String) (o : Options)
    (fr : FetchResult) :
    (feedFinalEntry cache name o fr).config_hash = some (hash_config name o.pairs) := by
  unfold feedFinalEntry
  cases fr with
  | transportError => rfl
  | notModified => rfl
  | httpError => rfl
  | ok et iss => cases et <;> rfl

theorem mainLoop_ok_inv (inp : RunInput) (cache : List (String × CacheEntry)) :
    ∀ (feeds : List (String × Options)) (nc : List (String × CacheEntry)) (commit : Bool)
      (wr : List (String × RssDocument)) {nc2 : List (String × CacheEntry)} {commit2 : Bool}
      {wr2 : List (String × RssDocument)},
      mainLoop inp cache feeds nc commit wr = (nc2, commit2, wr2, none) →
      nc2 = nc ++ (feeds.map fun fo => (fo.1, feedFinalEntry cache fo.1 fo.2 (inp.fetch fo.1))) ∧
        (commit2 = true ↔ (commit = true ∨ ∃ fo ∈ feeds, feedCommits inp fo)) ∧
        (∀ fo ∈ feeds, ∀ et iss, inp.fetch fo.1 = .ok et iss →
          ∃ doc, buildDoc fo.1 fo.2 (hash_config fo.1 fo.2.pairs) inp.now iss = .ok doc) := by
  intro feeds
  induction feeds with
  | nil =>
    intro nc commit wr nc2 commit2 wr2 h
    unfold mainLoop at h
    rw [Prod.mk.injEq, Prod.mk.injEq, Prod.mk.injEq] at h
    obtain ⟨h1, h2, _, _⟩ := h
    subst h1
    subst h2
    refine ⟨by simp, by simp, fun fo hmem => absurd hmem (List.not_mem_nil fo)⟩
  | cons fo rest ih =>
    intro nc commit wr nc2 commit2 wr2 h
    obtain ⟨name, options⟩ := fo
    unfold mainLoop at h
    dsimp only at h
    cases hf : inp.fetch name with
    | transportError =>
      rw [hf] at h
      rw [Prod.mk.injEq, Prod.mk.injEq, Prod.mk.injEq] at h
      exact absurd h.2.2.2 (by simp)
    | notModified =>
      rw [hf] at h
      obtain ⟨ha, hb, hc⟩ := ih _ _ _ h
      refine ⟨?_, ?_, ?_⟩
      · rw [ha, List.append_assoc]
        simp [feedFinalEntry, hf]
      · rw [hb, List.exists_mem_cons_iff]
        have : ¬ feedCommits inp (name, options) := by
          rintro ⟨et, iss, doc, hfetch, -, -⟩
          rw [hf] at hfetch
          cases hfetch
        tauto
      · intro go hmem et iss hfetch
        rcases List.mem_cons.mp hmem with rfl | hx
        · rw [hf] at hfetch; cases hfetch
        · exact hc go hx et iss hfetch
    | httpError =>
      rw [hf] at h
      obtain ⟨ha, hb, hc⟩ := ih _ _ _ h
      refine ⟨?_, ?_, ?_⟩
      · rw [ha, List.append_assoc]
        simp [feedFinalEntry, hf]
      · rw [hb, List.exists_mem_cons_iff]
        have : ¬ feedCommits inp (name, options) := by
          rintro ⟨et, iss, doc, hfetch, -, -⟩
          rw [hf] at hfetch
          cases hfetch
        tauto
      · intro go hmem et iss hfetch
        rcases List.mem_cons.mp hmem with rfl | hx
        · rw [hf] at hfetch; cases hfetch
        · exact hc go hx et iss hfetch
    | ok etagHeader issues =>
      rw [hf] at h
      dsimp only at h
      cases hbd : buildDoc name options (hash_config name options.pairs) inp.now issues with
      | error e =>
        rw [hbd] at h
        dsimp only at h
        rw [Prod.mk.injEq, Prod.mk.injEq, Prod.mk.injEq] at h
        exact absurd h.2.2.2 (by simp)
      | ok doc =>
        rw [hbd] at h
        dsimp only at h
        by_cases hcond : (!doc.equals (get_feed_info (inp.disk name)) || inp.force) = true
        · rw [if_pos hcond] at h
          obtain ⟨ha, hb, hc⟩ := ih _ _ _ h
          have hhead : feedCommits inp (name, options) := by
            refine ⟨etagHeader, issues, doc, hf, hbd, ?_⟩
            rcases Bool.or_eq_true _ _ |>.mp hcond with hne | hforce
            · exact Or.inl (by simpa using hne)
            · exact Or.inr hforce
          refine ⟨?_, ?_, ?_⟩
          · rw [ha, List.append_assoc]
            cases etagHeader <;> simp [feedFinalEntry, hf]
          · rw [hb, List.exists_mem_cons_iff]
            simp [hhead]
          · intro go hmem et iss hfetch
            rcases List.mem_cons.mp hmem with rfl | hx
            · rw [hf] at hfetch
              cases hfetch
              exact ⟨doc, hbd⟩
            · exact hc go hx et iss hfetch
        · rw [if_neg hcond] at h
          obtain ⟨ha, hb, hc⟩ := ih _ _ _ h
          have hnothead : ¬ feedCommits inp (name, options) := by
            rintro ⟨et, iss, doc2, hfetch, hbuild, hbad⟩
            rw [hf] at hfetch
            cases hfetch
            rw [hbd] at hbuild
            cases hbuild
            have : (!doc.equals (get_feed_info (inp.disk name)) || inp.force) = true := by
              rcases hbad with hne | hforce
              · simp [hne]
              · simp [hforce]
            exact hcond this
          refine ⟨?_, ?_, ?_⟩
          · rw [ha, List.append_assoc]
            cases etagHeader <;> simp [feedFinalEntry, hf]
          · rw [hb, List.exists_mem_cons_iff]
            tauto
          · intro go hmem et iss hfetch
            rcases List.mem_cons.mp hmem with rfl | hx
            · rw [hf] at hfetch
              cases hfetch
              exact ⟨doc, hbd⟩
            · exact hc go hx et iss hfetch

theorem runMain_loop_none {inp : RunInput} {nc2 : List (String × CacheEntry)} {commit2 : Bool}
    {wr2 : List (String × RssDocument)}
    (hm : mainLoop inp (read_cache inp) inp.config [] false [] = (nc2, commit2, wr2, none)) :
    runMain inp = ⟨wr2,
      if !dictBEq nc2 (read_cache inp) && inp.enable_cache then some nc2 else none,
      some (if commit2 then "commit" else "skip"), none⟩ := by
  unfold runMain
  dsimp only
  rw [hm]

theorem runMain_loop_some {inp : RunInput} {nc2 : List (String × CacheEntry)} {commit2 : Bool}
    {wr2 : List (String × RssDocument)} {e : RunError}
    (hm : mainLoop inp (read_cache inp) inp.config [] false [] = (nc2, commit2, wr2, some e)) :
    runMain inp = ⟨wr2, none, none, some e⟩ := by
  unfold runMain
  dsimp only
  rw [hm]

theorem lookup_map_entry {f : String × Options → CacheEntry} :
    ∀ {l : List (String × Options)}, (l.map Prod.fst).Nodup →
      ∀ {name : String} {options : Options}, (name, options) ∈ l →
        (l.map fun fo => (fo.1, f fo)).lookup name = some (f (name, options)) := by
  intro l
  induction l with
  | nil => intro _ _ _ h; cases h
  | cons x xs ih =>
    intro hnd name options hmem
    rw [List.map_cons, List.nodup_cons] at hnd
    obtain ⟨hnotin, hndtl⟩ := hnd
    rcases List.mem_cons.mp hmem with heq | hx
    · cases heq
      rw [List.map_cons]
      simp [List.lookup]
    · have hne : (name == x.1) = false := by
        refine beq_eq_false_iff_ne.mpr fun he => hnotin ?_
        rw [← he]
        exact List.mem_map_of_mem Prod.fst hx
      rw [List.map_cons]
      simp only [List.lookup, hne]
      exact ih hndtl hx

/-! ## Claim C4 -/

/-- C4 as amended: for a feed whose fetch returns not-modified or an error
status, the cache entry persisted at the end of a completed run keeps the
conditional token that was loaded, but its stored config hash is set to the
current configuration hash; the whole entry is unchanged only when the
stored hash already equals the current one. -/
theorem C4_cache_entry_on_unfetched (inp : RunInput) (nc : List (String × CacheEntry))
    (name : String) (options : Options)
    (hnd : (inp.config.map Prod.fst).Nodup)
    (hmem : (name, options) ∈ inp.config)
    (hfr : inp.fetch name = .notModified ∨ inp.fetch name = .httpError)
    (hco : (runMain inp).cacheOut = some nc) :
    nc.lookup name =
      some { etag := (((read_cache inp).lookup name).getD
              { etag := none, config_hash := none }).etag,
             config_hash := some (hash_config name options.pairs) } := by
  rcases hm : mainLoop inp (read_cache inp) inp.config [] false [] with ⟨nc2, commit2, wr2, err⟩
  cases err with
  | some e =>
    rw [runMain_loop_some hm] at hco
    simp at hco
  | none =>
    rw [runMain_loop_none hm] at hco
    dsimp only at hco
    split at hco
    · cases hco
      obtain ⟨ha, -, -⟩ := mainLoop_ok_inv inp (read_cache inp) inp.config [] false [] hm
      rw [ha, List.nil_append, lookup_map_entry hnd hmem]
      rcases hfr with hf | hf <;> rw [hf] <;> rfl
    · cases hco

theorem C4_cache_entry_on_unfetched_witness :
    (c4Input.config.map Prod.fst).Nodup ∧ (("f", exOpts) ∈ c4Input.config) ∧
      (c4Input.fetch "f" = .notModified ∨ c4Input.fetch "f" = .httpError) ∧
      (runMain c4Input).cacheOut = some c4nc ∧
      c4nc.lookup "f" =
        some { etag := (((read_cache c4Input).lookup "f").getD
                { etag := none, config_hash := none }).etag,
               config_hash := some (hash_config "f" exOpts.pairs) } :=
  ⟨by decide, by decide, Or.inr rfl, rfl,
    C4_cache_entry_on_unfetched c4Input c4nc "f" exOpts (by decide) (by decide) (Or.inr rfl) rfl⟩

/-- C4 as stated is false: a run whose single feed ends in a fetch error
still persists a cache file in which the entry of that feed gained the
current config hash, so the persisted entry differs from the loaded one
(which carried no stored hash). -/
theorem C4_claim_false_entry_rewritten :
    runMain c4Input = c4Out ∧ c4nc.lookup "f" ≠ (read_cache c4Input).lookup "f" :=
  ⟨rfl, by decide⟩

/-! ## Claim C7 -/

/-- C7: a run that processes all feeds (no uncaught error) emits exactly
one token, commit or skip, and it is commit exactly when some successfully
fetched feed compared unequal to its prior persisted document or the force
flag is set and some feed was successfully fetched. -/
theorem C7_token_iff (inp : RunInput) (out : RunOutcome)
    (h : runMain inp = out) (he : out.error = none) :
    (out.token = some "commit" ∨ out.token = some "skip") ∧
      (out.token = some "commit" ↔ C7cond inp) := by
  rcases hm : mainLoop inp (read_cache inp) inp.config [] false [] with ⟨nc2, commit2, wr2, err⟩
  cases err with
  | some e =>
    rw [runMain_loop_some hm] at h
    rw [← h] at he
    simp at he
  | none =>
    obtain ⟨-, hb, hc⟩ := mainLoop_ok_inv inp (read_cache inp) inp.config [] false [] hm
    rw [runMain_loop_none hm] at h
    cases h
    have hcomm : commit2 = true ↔ C7cond inp := by
      rw [hb]
      unfold C7cond comparedUnequal fetchedOk feedCommits
      constructor
      · rintro (hfalse | ⟨fo, hmem, et, iss, doc, hf, hbd, hne | hforce⟩)
        · cases hfalse
        · exact Or.inl ⟨fo, hmem, et, iss, doc, hf, hbd, hne⟩
        · exact Or.inr ⟨hforce, fo, hmem, et, iss, hf⟩
      · rintro (⟨fo, hmem, et, iss, doc, hf, hbd, hne⟩ | ⟨hforce, fo, hmem, et, iss, hf⟩)
        · exact Or.inr ⟨fo, hmem, et, iss, doc, hf, hbd, Or.inl hne⟩
        · obtain ⟨doc, hbd⟩ := hc fo hmem et iss hf
          exact Or.inr ⟨fo, hmem, et, iss, doc, hf, hbd, Or.inr hforce⟩
    cases hcommit2 : commit2 with
    | true =>
      rw [hcommit2] at hcomm
      exact ⟨Or.inl rfl, iff_of_true rfl (hcomm.mp rfl)⟩
    | false =>
      rw [hcommit2] at hcomm
      refine ⟨Or.inr rfl, iff_of_false (by simp) fun hcc => ?_⟩
      have := hcomm.mpr hcc
      cases this

theorem C7_token_iff_witness :
    runMain c7Input = c7Out ∧ c7Out.error = none ∧
      ((c7Out.token = some "commit" ∨ c7Out.token = some "skip") ∧
        (c7Out.token = some "commit" ↔ C7cond c7Input)) :=
  ⟨rfl, rfl, C7_token_iff c7Input c7Out rfl rfl⟩

/-! ## Claim C10 -/

/-- C10: whenever a run persists the request cache, the persisted key list
is exactly the configured feed name list (entries of dropped feeds are
gone), and every configured feed, including feeds whose fetch failed or was
not modified, has an entry storing the current config hash of that feed. -/
theorem C10_cache_keys_and_hashes (inp : RunInput) (nc : List (String × CacheEntry))
    (hco : (runMain inp).cacheOut = some nc)
    (hnd : (inp.config.map Prod.fst).Nodup) :
    nc.map Prod.fst = inp.config.map Prod.fst ∧
      ∀ fo ∈ inp.config, ∃ e, nc.lookup fo.1 = some e ∧
        e.config_hash = some (hash_config fo.1 fo.2.pairs) := by
  rcases hm : mainLoop inp (read_cache inp) inp.config [] false [] with ⟨nc2, commit2, wr2, err⟩
  cases err with
  | some e =>
    rw [runMain_loop_some hm] at hco
    simp at hco
  | none =>
    rw [runMain_loop_none hm] at hco
    dsimp only at hco
    split at hco
    · cases hco
      obtain ⟨ha, -, -⟩ := mainLoop_ok_inv inp (read_cache inp) inp.config [] false [] hm
      constructor
      · rw [ha, List.nil_append, List.map_map]
        rfl
      · intro fo hmem
        obtain ⟨name, options⟩ := fo
        refine ⟨feedFinalEntry (read_cache inp) name options (inp.fetch name), ?_, ?_⟩
        · rw [ha, List.nil_append]
          exact lookup_map_entry hnd hmem
        · exact feedFinalEntry_hash (read_cache inp) name options (inp.fetch name)
    · cases hco

theorem C10_cache_keys_and_hashes_witness :
    (runMain c10Input).cacheOut = some c10nc ∧ (c10Input.config.map Prod.fst).Nodup ∧
      (c10nc.map Prod.fst = c10Input.config.map Prod.fst ∧
        ∀ fo ∈ c10Input.config, ∃ e, c10nc.lookup fo.1 = some e ∧
          e.config_hash = some (hash_config fo.1 fo.2.pairs)) :=
  ⟨rfl, by decide, C10_cache_keys_and_hashes c10Input c10nc rfl (by decide)⟩
